import Mathlib

/-!
Verification of the security-news pipeline (`main.py`): RSS feed reading with a
recency window and per-source cap, summarization with a deterministic fallback,
speech synthesis, optional RVC voice conversion with per-article fallback, and
Telegram delivery with a text-only fallback.

The Python source is shallowly embedded: pure data transformations become Lean
functions; external effects (the feed parse result, the Groq response, the TTS
call, the RVC subprocess steps, the Telegram responses, the model archive
download) become explicit outcome parameters; file-system state is a list of
path strings; timestamps are integers (seconds since epoch, UTC).
-/

/-! ### String primitives

Python string operations, re-implemented on character lists so that the kernel
can evaluate them (`String.replace`, `String.trim`, `String.endsWith` and
`String.contains` do not reduce).  `pyReplace` replaces every occurrence of a
non-empty pattern, like Python `str.replace`; `pyStrip` is Python `str.strip`;
`pyTake` is slicing `[:n]` (Python slices count code points, as does this).
-/

def replaceFuel (pat rep : List Char) : Nat → List Char → List Char
  | _, [] => []
  | 0, s => s
  | fuel + 1, c :: cs =>
    if pat.isPrefixOf (c :: cs) && !pat.isEmpty then
      rep ++ replaceFuel pat rep fuel (cs.drop (pat.length - 1))
    else
      c :: replaceFuel pat rep fuel cs

def pyReplace (s pat rep : String) : String :=
  ⟨replaceFuel pat.data rep.data s.data.length s.data⟩

def pyStrip (s : String) : String :=
  ⟨((s.data.dropWhile Char.isWhitespace).reverse.dropWhile Char.isWhitespace).reverse⟩

def pyTake (s : String) (n : Nat) : String :=
  ⟨s.data.take n⟩

def strEndsWith (s suf : String) : Bool :=
  suf.data.isSuffixOf s.data

def strHasChar (s : String) (c : Char) : Bool :=
  s.data.contains c

/-! ### Configuration constants (module level in `main.py`) -/

def MAX_ARTICLES_PER_BLOG : Nat := 2

def LOOKBACK_HOURS : Int := 24

/-- `timedelta(hours := LOOKBACK_HOURS)` expressed in seconds. -/
def lookbackSeconds : Int := LOOKBACK_HOURS * 3600

/-! ### Feed Reader (`get_recent_articles`) -/

/-- A parsed feed entry as `feedparser` presents it: each field may be absent.
Timestamps are instants in seconds (UTC). -/
structure Entry where
  published_parsed : Option Int := none
  updated_parsed : Option Int := none
  title : Option String := none
  link : Option String := none
  summary : Option String := none
  description : Option String := none
deriving DecidableEq

/-- The loop `for attr in ("published_parsed", "updated_parsed")`: the first
present timestamp, preferring the publication one. -/
def entryTimestamp (e : Entry) : Option Int :=
  match e.published_parsed with
  | some v => some v
  | none => e.updated_parsed

structure Article where
  title : String
  link : String
  content : String
  pub : Int
deriving DecidableEq

/-- The dict appended by `get_recent_articles` for an eligible entry. -/
def articleOf (e : Entry) (pub : Int) : Article :=
  { title := pyStrip (e.title.getD "Без заголовка")
    link := e.link.getD ""
    content := pyTake (e.summary.getD (e.description.getD "")) 4000
    pub := pub }

/-- The entry loop of `get_recent_articles`: skip entries with no timestamp or
a timestamp before the cutoff, append the rest, and break as soon as the
accumulated count reaches `cap`.  `count` is `len(articles)` so far. -/
def collectRecent (cutoff : Int) (cap : Nat) : List Entry → Nat → List Article
  | [], _ => []
  | e :: es, count =>
    match entryTimestamp e with
    | none => collectRecent cutoff cap es count
    | some pub =>
      if pub < cutoff then
        collectRecent cutoff cap es count
      else if count + 1 ≥ cap then
        [articleOf e pub]
      else
        articleOf e pub :: collectRecent cutoff cap es (count + 1)

/-- `get_recent_articles`, given the current UTC time and the parsed entries
(a parse failure yields the empty entry list, hence the empty result). -/
def get_recent_articles (now : Int) (entries : List Entry) : List Article :=
  collectRecent (now - lookbackSeconds) MAX_ARTICLES_PER_BLOG entries 0

/-- Eligibility of one entry, as a partial map to the produced article:
`none` exactly when the entry is skipped (`pub is None or pub < cutoff`). -/
def eligibleArticle (cutoff : Int) (e : Entry) : Option Article :=
  match entryTimestamp e with
  | none => none
  | some pub => if pub < cutoff then none else some (articleOf e pub)

theorem collectRecent_eq_take (cutoff : Int) (cap : Nat) :
    ∀ (es : List Entry) (count : Nat), count < cap →
      collectRecent cutoff cap es count =
        (es.filterMap (eligibleArticle cutoff)).take (cap - count) := by
  intro es
  induction es with
  | nil => intro count _; simp [collectRecent]
  | cons e es ih =>
    intro count hcount
    cases hts : entryTimestamp e with
    | none =>
      simp [collectRecent, hts, List.filterMap_cons, eligibleArticle, ih count hcount]
    | some pub =>
      by_cases hlt : pub < cutoff
      · simp [collectRecent, hts, hlt, List.filterMap_cons, eligibleArticle,
          ih count hcount]
      · by_cases hcap : count + 1 ≥ cap
        · have hc : count + 1 = cap := le_antisymm hcount hcap
          have h1 : cap - count = 1 := by omega
          simp [collectRecent, hts, hlt, hcap, List.filterMap_cons, eligibleArticle, h1]
        · have hlt2 : count + 1 < cap := by omega
          have h2 : cap - count = (cap - (count + 1)) + 1 := by omega
          simp [collectRecent, hts, hlt, hcap, List.filterMap_cons, eligibleArticle,
            ih (count + 1) hlt2, h2]

theorem get_recent_articles_eq (now : Int) (entries : List Entry) :
    get_recent_articles now entries =
      (entries.filterMap (eligibleArticle (now - lookbackSeconds))).take
        MAX_ARTICLES_PER_BLOG := by
  have h := collectRecent_eq_take (now - lookbackSeconds) MAX_ARTICLES_PER_BLOG entries 0
    (by simp [MAX_ARTICLES_PER_BLOG])
  simpa [get_recent_articles] using h

theorem eligibleArticle_mem_spec (cutoff : Int) (e : Entry) (a : Article)
    (h : eligibleArticle cutoff e = some a) :
    entryTimestamp e = some a.pub ∧ cutoff ≤ a.pub := by
  unfold eligibleArticle at h
  cases hts : entryTimestamp e with
  | none => simp [hts] at h
  | some pub =>
    rw [hts] at h
    by_cases hlt : pub < cutoff
    · simp [hlt] at h
    · simp [hlt] at h
      subst h
      exact ⟨by simp [articleOf, hts], by simp [articleOf]; omega⟩

/-- When the entries whose timestamp fields are both absent are removed from
the feed, nothing changes: such entries never contribute to the output. -/
theorem filterMap_eligible_filter_isSome (cutoff : Int) (entries : List Entry) :
    (entries.filter (fun e => (entryTimestamp e).isSome)).filterMap
        (eligibleArticle cutoff) =
      entries.filterMap (eligibleArticle cutoff) := by
  induction entries with
  | nil => rfl
  | cons e es ih =>
    cases hts : entryTimestamp e with
    | none =>
      simp [List.filter_cons, hts, List.filterMap_cons, eligibleArticle, ih]
    | some pub =>
      simp [List.filter_cons, hts, List.filterMap_cons, eligibleArticle, ih]

/-- C1: every article emitted by `get_recent_articles` stems from an entry
carrying a timestamp (publication preferred, else last-updated), and that
timestamp is at least `now - LOOKBACK_HOURS`; entries lacking both timestamp
fields are excluded — removing them from the feed leaves the output
unchanged. -/
theorem spec_C1 (now : Int) (entries : List Entry) :
    (∀ a ∈ get_recent_articles now entries,
        now - lookbackSeconds ≤ a.pub ∧ ∃ e ∈ entries, entryTimestamp e = some a.pub) ∧
      get_recent_articles now
          (entries.filter (fun e => (entryTimestamp e).isSome)) =
        get_recent_articles now entries := by
  constructor
  · intro a ha
    rw [get_recent_articles_eq] at ha
    have ha2 := List.mem_of_mem_take ha
    obtain ⟨e, he, hfe⟩ := List.mem_filterMap.mp ha2
    obtain ⟨hts, hle⟩ := eligibleArticle_mem_spec _ _ _ hfe
    exact ⟨hle, e, he, hts⟩
  · rw [get_recent_articles_eq, get_recent_articles_eq,
      filterMap_eligible_filter_isSome]

/-- Concrete entry used by the feed-reader witnesses: published exactly at
time 86400 s. -/
def entryAtDay : Entry := { published_parsed := some 86400 }

theorem spec_C1_witness :
    86400 - lookbackSeconds ≤ (articleOf entryAtDay 86400).pub ∧
      ∃ e ∈ [entryAtDay], entryTimestamp e = some (articleOf entryAtDay 86400).pub :=
  (spec_C1 86400 [entryAtDay]).1 (articleOf entryAtDay 86400) (by decide)

/-- C7: `get_recent_articles` emits at most `MAX_ARTICLES_PER_BLOG` articles,
and its output is exactly the first `MAX_ARTICLES_PER_BLOG` eligible entries
in feed order. -/
theorem spec_C7 (now : Int) (entries : List Entry) :
    (get_recent_articles now entries).length ≤ MAX_ARTICLES_PER_BLOG ∧
      get_recent_articles now entries =
        (entries.filterMap (eligibleArticle (now - lookbackSeconds))).take
          MAX_ARTICLES_PER_BLOG := by
  refine ⟨?_, get_recent_articles_eq now entries⟩
  rw [get_recent_articles_eq]
  exact List.length_take_le _ _

/-- C10: an entry whose timestamp equals the cutoff `now - LOOKBACK_HOURS`
exactly is included — the recency boundary is inclusive, because only entries
strictly older than the cutoff are skipped. -/
theorem spec_C10 (now : Int) (e : Entry)
    (h : entryTimestamp e = some (now - lookbackSeconds)) :
    get_recent_articles now [e] = [articleOf e (now - lookbackSeconds)] := by
  rw [get_recent_articles_eq]
  simp [List.filterMap_cons, eligibleArticle, h, MAX_ARTICLES_PER_BLOG]

theorem spec_C10_witness :
    get_recent_articles (86400 + lookbackSeconds) [entryAtDay] =
      [articleOf entryAtDay ((86400 + lookbackSeconds) - lookbackSeconds)] :=
  spec_C10 (86400 + lookbackSeconds) entryAtDay (by decide)

/-! ### Voice Model Cache (`download_model_if_needed`) -/

/-- The local model cache directory: the paths of the files it holds, relative
to `MODEL_CACHE_DIR`; files in subdirectories contain a slash. -/
structure CacheDir where
  files : List String
deriving DecidableEq

/-- `MODEL_CACHE_DIR.glob(pattern)`: non-recursive, so only top-level files. -/
def globExt (d : CacheDir) (ext : String) : List String :=
  d.files.filter (fun f => !(strHasChar f '/') && strEndsWith f ext)

/-- `MODEL_CACHE_DIR.rglob(pattern)`: recursive. -/
def rglobExt (d : CacheDir) (ext : String) : List String :=
  d.files.filter (fun f => strEndsWith f ext)

/-- `index_files[0] if index_files else ""`. -/
def firstOrEmpty : List String → String
  | [] => ""
  | f :: _ => f

/-- Outcome of `requests.get(HF_MODEL_URL)` + `zipfile.extractall`: either the
HTTP request or the unzip raises, or it yields a list of extracted files. -/
inductive Remote where
  | fail
  | archive (files : List String)
deriving DecidableEq

inductive ModelResult where
  | ok (pth index : String)
  | error
deriving DecidableEq

/-- `download_model_if_needed`, returning the result paired with the number of
network requests performed.  A cache hit returns the first `*.pth` file (plus
the first `*.index` file or `""`) without touching `remote`; otherwise the
archive is fetched and extracted into the cache directory and the directory is
re-scanned recursively. -/
def download_model_if_needed (d : CacheDir) (remote : Remote) : ModelResult × Nat :=
  match globExt d ".pth" with
  | p :: _ => (ModelResult.ok p (firstOrEmpty (globExt d ".index")), 0)
  | [] =>
    match remote with
    | Remote.fail => (ModelResult.error, 1)
    | Remote.archive fs =>
      let d2 : CacheDir := ⟨d.files ++ fs⟩
      match rglobExt d2 ".pth" with
      | [] => (ModelResult.error, 1)
      | p :: _ => (ModelResult.ok p (firstOrEmpty (rglobExt d2 ".index")), 1)

/-- C2: when a weights file is already in the cache, `download_model_if_needed`
returns it (with the first index file, or `""` when none) performing zero
network requests, and the result does not depend on the remote source at all —
so with a populated cache no call ever re-downloads. -/
theorem spec_C2 (d : CacheDir) (remote remote2 : Remote) (p : String)
    (rest : List String) (h : globExt d ".pth" = p :: rest) :
    download_model_if_needed d remote =
        (ModelResult.ok p (firstOrEmpty (globExt d ".index")), 0) ∧
      download_model_if_needed d remote = download_model_if_needed d remote2 := by
  unfold download_model_if_needed
  rw [h]
  exact ⟨rfl, rfl⟩

/-- A populated cache directory, as in Scenario E: it holds `voice.pth`. -/
def cacheWithVoice : CacheDir := ⟨["voice.pth"]⟩

theorem spec_C2_witness :
    download_model_if_needed cacheWithVoice Remote.fail =
        (ModelResult.ok "voice.pth" (firstOrEmpty (globExt cacheWithVoice ".index")), 0) ∧
      download_model_if_needed cacheWithVoice Remote.fail =
        download_model_if_needed cacheWithVoice (Remote.archive ["other.pth"]) :=
  spec_C2 cacheWithVoice Remote.fail (Remote.archive ["other.pth"]) "voice.pth" []
    (by decide)

/-! ### Summarizer (`summarize_to_russian`) -/

/-- Outcome of the Groq chat-completion call: `some txt` is the returned
message content, `none` means the call raised. -/
def summarize_to_russian (title content : String) (resp : Option String) : String :=
  match resp with
  | some txt => pyStrip txt
  | none => "Новая статья: " ++ title

/-- C5 counterexample: the fallback synopsis is not the literal
`"New article: {title}"` — the code's literal is the Russian
`"Новая статья: {title}"`. -/
theorem spec_C5_counterexample :
    summarize_to_russian "X" "body" none ≠ "New article: X" := by decide

/-- C5 (amended): if the remote summarization call fails, `summarize_to_russian`
returns the deterministic fallback `"Новая статья: {title}"` (the code's
Russian rendering of "New article: {title}"), derived only from the title —
independent of the body — and, being a total function, never propagates the
failure. -/
theorem spec_C5 (title content content2 : String) :
    summarize_to_russian title content none = "Новая статья: " ++ title ∧
      summarize_to_russian title content none =
        summarize_to_russian title content2 none :=
  ⟨rfl, rfl⟩

/-! ### Speech, conversion and delivery (`tts_to_mp3`, `apply_rvc`,
`tg_send_audio`) and the orchestrator (`main`)

External effects of one article are captured by `ArticleEnv`: the Groq
response, whether `tts_to_mp3` succeeds, the temporary file name produced by
`NamedTemporaryFile`, at which sub-step `apply_rvc` raises (if any), and
whether the Telegram audio post returns a success status. -/

/-- The sub-steps of `apply_rvc` that can raise: the mp3→wav ffmpeg call, the
RVC inference, and the wav→mp3 ffmpeg call. -/
inductive RvcStage where
  | ffmpeg1
  | rvcInfer
  | ffmpeg2
deriving DecidableEq

/-- Messages that reach the Telegram channel: an audio post (with the
channel's success status) or a plain text post. -/
inductive Event where
  | audioPost (title link path : String) (ok : Bool)
  | textPost (msg : String)
deriving DecidableEq

/-- `mp3_in.replace(".mp3", "_in.wav")`. -/
def wavIn (mp3_in : String) : String := pyReplace mp3_in ".mp3" "_in.wav"

/-- `mp3_in.replace(".mp3", "_rvc.wav")`. -/
def wavOut (mp3_in : String) : String := pyReplace mp3_in ".mp3" "_rvc.wav"

/-- `tts_path.replace(".mp3", "_kanevsky.mp3")`. -/
def rvcPath (tts_path : String) : String := pyReplace tts_path ".mp3" "_kanevsky.mp3"

/-- `apply_rvc`: returns whether it completed, together with the files it
created and did not delete.  The final `for f in [wav_in, wav_out]: unlink`
cleanup runs only when no earlier step raised; a failure at inference leaves
`wav_in` behind, a failure at the second ffmpeg call leaves both wav files. -/
def apply_rvc (mp3_in mp3_out model_pth model_index : String)
    (fail : Option RvcStage) : Bool × List String :=
  match fail with
  | some RvcStage.ffmpeg1 => (false, [])
  | some RvcStage.rvcInfer => (false, [wavIn mp3_in])
  | some RvcStage.ffmpeg2 => (false, [wavIn mp3_in, wavOut mp3_in])
  | none => (true, [mp3_out])

/-- The caption fallback text message sent when the audio post fails. -/
def tg_text_fallback (title link : String) : String :=
  "📄 <b>" ++ title ++ "</b>\n\n🔗 " ++ link

/-- `tg_send_audio`: always posts the audio; when the response is not ok, it
additionally sends the text-only notice and returns normally. -/
def tg_send_audio (title link audio_path : String) (ok : Bool) : List Event :=
  if ok then
    [Event.audioPost title link audio_path true]
  else
    [Event.audioPost title link audio_path false,
     Event.textPost (tg_text_fallback title link)]

structure ArticleInput where
  title : String
  link : String
  content : String
deriving DecidableEq

structure ArticleEnv where
  summaryResp : Option String
  ttsOk : Bool
  ttsPath : String
  rvcFail : Option RvcStage
  audioSendOk : Bool
deriving DecidableEq

structure ArtResult where
  events : List Event
  leftover : List String
  speechText : String
  fatal : Bool
deriving DecidableEq

/-- The body of the per-article loop in `main`: summarize, synthesize to the
temporary mp3 (`NamedTemporaryFile` creates the file before `tts_to_mp3`
runs, and a synthesis failure propagates), optionally convert with fallback
to the unconverted file, deliver, then delete `tts_path` and `audio_path`.
`leftover` is every file created for the article that is still on disk at the
end. -/
def process_article (use_rvc : Bool) (model_pth model_index : String)
    (art : ArticleInput) (env : ArticleEnv) : ArtResult :=
  let summary := summarize_to_russian art.title art.content env.summaryResp
  let tts_path := env.ttsPath
  if !env.ttsOk then
    { events := [], leftover := [tts_path],
      speechText := art.title ++ ". " ++ summary, fatal := true }
  else
    let step3 : String × List String :=
      if use_rvc then
        match apply_rvc tts_path (rvcPath tts_path) model_pth model_index
            env.rvcFail with
        | (true, added) => (rvcPath tts_path, added)
        | (false, added) => (tts_path, added)
      else (tts_path, [])
    let audio_path := step3.1
    { events := tg_send_audio art.title art.link audio_path env.audioSendOk
      leftover :=
        (tts_path :: step3.2).filter (fun f => !(f == tts_path || f == audio_path))
      speechText := art.title ++ ". " ++ summary
      fatal := false }

structure RunResult where
  events : List Event
  leftover : List String
  fatal : Bool
deriving DecidableEq

/-- The article loop of `main` over one feed's articles: an unhandled
exception (`fatal`) aborts the loop; otherwise events accumulate in order. -/
def run_articles (use_rvc : Bool) (model_pth model_index : String) :
    List (ArticleInput × ArticleEnv) → RunResult
  | [] => { events := [], leftover := [], fatal := false }
  | (a, env) :: rest =>
    let r := process_article use_rvc model_pth model_index a env
    if r.fatal then
      { events := r.events, leftover := r.leftover, fatal := true }
    else
      let rr := run_articles use_rvc model_pth model_index rest
      { events := r.events ++ rr.events, leftover := r.leftover ++ rr.leftover,
        fatal := rr.fatal }

/-- The model-resolution preamble of `main`: `use_rvc = bool(HF_MODEL_URL)`,
then one attempt at `download_model_if_needed`, any failure of which turns
conversion off for the run.  Returns `(use_rvc, model_pth, model_index,
network requests)`. -/
def resolve_model (hf_url : String) (d : CacheDir) (remote : Remote) :
    Bool × String × String × Nat :=
  if hf_url = "" then (false, "", "", 0)
  else
    match download_model_if_needed d remote with
    | (ModelResult.ok p i, n) => (true, p, i, n)
    | (ModelResult.error, n) => (false, "", "", n)

/-- `main`, restricted to one feed's article loop: model resolution happens
once, before any article, and the article loop runs with its outcome. -/
def main_run (hf_url : String) (d : CacheDir) (remote : Remote)
    (arts : List (ArticleInput × ArticleEnv)) : RunResult × Nat :=
  (run_articles (resolve_model hf_url d remote).1
      (resolve_model hf_url d remote).2.1
      (resolve_model hf_url d remote).2.2.1 arts,
   (resolve_model hf_url d remote).2.2.2)

/-- `s` contains `t` as a contiguous substring. -/
def containsSubstr (s t : String) : Prop := ∃ s1 s2, s = s1 ++ t ++ s2

/-- C9: if speech synthesis raises for an article, that article's processing
is fatal: nothing is delivered for it (no fallback), and the error is
surfaced — the article loop stops with `fatal` set rather than silently
skipping delivery. -/
theorem spec_C9 (u : Bool) (mp mi : String) (a : ArticleInput) (env : ArticleEnv)
    (rest : List (ArticleInput × ArticleEnv)) (h : env.ttsOk = false) :
    (process_article u mp mi a env).fatal = true ∧
      (process_article u mp mi a env).events = [] ∧
      (run_articles u mp mi ((a, env) :: rest)).fatal = true ∧
      (run_articles u mp mi ((a, env) :: rest)).events = [] := by
  refine ⟨?_, ?_, ?_, ?_⟩ <;> simp [process_article, run_articles, h]

/-- A sample article and environments used by the orchestrator witnesses. -/
def artSample : ArticleInput := { title := "T", link := "http://e/x", content := "C" }

def envTtsFail : ArticleEnv :=
  { summaryResp := none, ttsOk := false, ttsPath := "/tmp/t.mp3",
    rvcFail := none, audioSendOk := true }

theorem spec_C9_witness :
    (process_article true "m.pth" "" artSample envTtsFail).fatal = true ∧
      (process_article true "m.pth" "" artSample envTtsFail).events = [] ∧
      (run_articles true "m.pth" "" [(artSample, envTtsFail)]).fatal = true ∧
      (run_articles true "m.pth" "" [(artSample, envTtsFail)]).events = [] :=
  spec_C9 true "m.pth" "" artSample envTtsFail [] rfl

/-- C3: when conversion is enabled and `apply_rvc` raises at any sub-step, the
audio post still carries the pre-conversion TTS file, the article is processed
without a fatal error, the run continues with the remaining articles, and —
the conversion flag being untouched by the loop body — any later article whose
conversion succeeds is still delivered with converted audio. -/
theorem spec_C3 (mp mi : String) (a : ArticleInput) (env : ArticleEnv)
    (st : RvcStage) (rest : List (ArticleInput × ArticleEnv))
    (hT : env.ttsOk = true) (hR : env.rvcFail = some st) :
    Event.audioPost a.title a.link env.ttsPath env.audioSendOk ∈
        (process_article true mp mi a env).events ∧
      (process_article true mp mi a env).fatal = false ∧
      (run_articles true mp mi ((a, env) :: rest)).events =
        (process_article true mp mi a env).events ++
          (run_articles true mp mi rest).events ∧
      (∀ b envb, envb.ttsOk = true → envb.rvcFail = none →
        Event.audioPost b.title b.link (rvcPath envb.ttsPath) envb.audioSendOk ∈
          (process_article true mp mi b envb).events) := by
  refine ⟨?_, ?_, ?_, ?_⟩
  · cases st <;> cases hok : env.audioSendOk <;>
      simp [process_article, apply_rvc, tg_send_audio, hT, hR, hok]
  · cases st <;> simp [process_article, apply_rvc, tg_send_audio, hT, hR]
  · cases st <;>
      simp [run_articles, process_article, apply_rvc, tg_send_audio, hT, hR]
  · intro b envb hb1 hb2
    cases hok : envb.audioSendOk <;>
      simp [process_article, apply_rvc, tg_send_audio, hb1, hb2, hok]

def envRvcFail : ArticleEnv :=
  { summaryResp := some "S", ttsOk := true, ttsPath := "/tmp/a.mp3",
    rvcFail := some RvcStage.rvcInfer, audioSendOk := true }

theorem spec_C3_witness :
    Event.audioPost artSample.title artSample.link envRvcFail.ttsPath
        envRvcFail.audioSendOk ∈
        (process_article true "m.pth" "" artSample envRvcFail).events ∧
      (process_article true "m.pth" "" artSample envRvcFail).fatal = false :=
  ⟨(spec_C3 "m.pth" "" artSample envRvcFail RvcStage.rvcInfer [] rfl rfl).1,
   (spec_C3 "m.pth" "" artSample envRvcFail RvcStage.rvcInfer [] rfl rfl).2.1⟩

/-- C4: when the channel answers the audio post with a non-success status,
a text-only message that contains the article's title and its link is sent
instead, the article ends without a fatal error, and the run continues with
the next article. -/
theorem spec_C4 (u : Bool) (mp mi : String) (title link path : String)
    (a : ArticleInput) (env : ArticleEnv)
    (rest : List (ArticleInput × ArticleEnv))
    (hT : env.ttsOk = true) (hS : env.audioSendOk = false) :
    tg_send_audio title link path false =
        [Event.audioPost title link path false,
         Event.textPost (tg_text_fallback title link)] ∧
      containsSubstr (tg_text_fallback title link) title ∧
      containsSubstr (tg_text_fallback title link) link ∧
      Event.textPost (tg_text_fallback a.title a.link) ∈
        (process_article u mp mi a env).events ∧
      (process_article u mp mi a env).fatal = false ∧
      (run_articles u mp mi ((a, env) :: rest)).events =
        (process_article u mp mi a env).events ++
          (run_articles u mp mi rest).events := by
  refine ⟨rfl, ⟨"📄 <b>", "</b>\n\n🔗 " ++ link, ?_⟩,
    ⟨"📄 <b>" ++ title ++ "</b>\n\n🔗 ", "", ?_⟩, ?_, ?_, ?_⟩
  · simp [tg_text_fallback, String.append_assoc]
  · simp [tg_text_fallback, String.append_empty, String.append_assoc]
  · cases u <;> rcases hrv : env.rvcFail with _ | st <;> try cases st
    all_goals
      simp [process_article, apply_rvc, tg_send_audio, hT, hS, hrv]
  · cases u <;> rcases hrv : env.rvcFail with _ | st <;> try cases st
    all_goals
      simp [process_article, apply_rvc, tg_send_audio, hT, hS, hrv]
  · cases u <;> rcases hrv : env.rvcFail with _ | st <;> try cases st
    all_goals
      simp [run_articles, process_article, apply_rvc, tg_send_audio, hT, hS, hrv]

def envSendFail : ArticleEnv :=
  { summaryResp := none, ttsOk := true, ttsPath := "/tmp/b.mp3",
    rvcFail := none, audioSendOk := false }

theorem spec_C4_witness :
    tg_send_audio "T" "http://e/x" "/tmp/b.mp3" false =
        [Event.audioPost "T" "http://e/x" "/tmp/b.mp3" false,
         Event.textPost (tg_text_fallback "T" "http://e/x")] ∧
      Event.textPost (tg_text_fallback artSample.title artSample.link) ∈
        (process_article false "" "" artSample envSendFail).events :=
  ⟨(spec_C4 false "" "" "T" "http://e/x" "/tmp/b.mp3" artSample envSendFail []
      rfl rfl).1,
   (spec_C4 false "" "" "T" "http://e/x" "/tmp/b.mp3" artSample envSendFail []
      rfl rfl).2.2.2.1⟩

/-- C6 counterexample: with conversion enabled, TTS succeeding and `apply_rvc`
raising at the inference step (a handled failure — the article is still
delivered), the intermediate uncompressed WAV `/tmp/a_in.wav` remains on disk
after the article's cleanup. -/
theorem spec_C6_counterexample :
    (process_article true "m.pth" "" artSample envRvcFail).fatal = false ∧
      (process_article true "m.pth" "" artSample envRvcFail).leftover =
        ["/tmp/a_in.wav"] ∧
      (process_article true "m.pth" "" artSample envRvcFail).leftover ≠ [] := by
  refine ⟨by decide, by decide, by decide⟩

/-- C6 (amended): the article-level cleanup always removes the TTS mp3 and the
delivered audio file, so nothing remains when conversion succeeds, is
disabled, or fails before its first re-encode; but when `apply_rvc` raises
after creating its intermediate WAV files (at inference or at the final
re-encode), those WAV files remain on disk — the in-function cleanup of
`apply_rvc` is not reached on failure. -/
theorem spec_C6 (u : Bool) (mp mi : String) (a : ArticleInput)
    (env : ArticleEnv) (hT : env.ttsOk = true) :
    ((u = false ∨ env.rvcFail = none ∨ env.rvcFail = some RvcStage.ffmpeg1) →
        (process_article u mp mi a env).leftover = []) ∧
      (u = true → env.rvcFail = some RvcStage.rvcInfer →
        wavIn env.ttsPath ≠ env.ttsPath →
        (process_article u mp mi a env).leftover = [wavIn env.ttsPath]) ∧
      (u = true → env.rvcFail = some RvcStage.ffmpeg2 →
        wavIn env.ttsPath ≠ env.ttsPath → wavOut env.ttsPath ≠ env.ttsPath →
        (process_article u mp mi a env).leftover =
          [wavIn env.ttsPath, wavOut env.ttsPath]) := by
  refine ⟨?_, ?_, ?_⟩
  · rintro (hu | hr | hr)
    · simp [process_article, hT, hu]
    · cases u <;> simp [process_article, apply_rvc, hT, hr]
    · cases u <;> simp [process_article, apply_rvc, hT, hr]
  · rintro rfl hr hne
    simp [process_article, apply_rvc, hT, hr, hne]
  · rintro rfl hr hne1 hne2
    simp [process_article, apply_rvc, hT, hr, hne1, hne2]

def envRvcOk : ArticleEnv :=
  { summaryResp := some "S", ttsOk := true, ttsPath := "/tmp/a.mp3",
    rvcFail := none, audioSendOk := true }

theorem spec_C6_witness :
    (process_article true "m.pth" "" artSample envRvcOk).leftover = [] ∧
      (process_article true "m.pth" "" artSample envRvcFail).leftover =
        [wavIn envRvcFail.ttsPath] :=
  ⟨(spec_C6 true "m.pth" "" artSample envRvcOk rfl).1 (Or.inr (Or.inl rfl)),
   (spec_C6 true "m.pth" "" artSample envRvcFail rfl).2.1 rfl rfl (by decide)⟩

/-- In a run with conversion off, every audio post carries some article's
unconverted TTS file. -/
theorem run_articles_audio_unconverted (mp mi : String) :
    ∀ (arts : List (ArticleInput × ArticleEnv)) (ev : Event),
      ev ∈ (run_articles false mp mi arts).events → ∀ t l p ok,
        ev = Event.audioPost t l p ok →
          p ∈ arts.map (fun x => x.2.ttsPath) := by
  intro arts
  induction arts with
  | nil => intro ev hev; simp [run_articles] at hev
  | cons pair rest ih =>
    obtain ⟨a, env⟩ := pair
    intro ev hev t l p ok heq
    subst heq
    cases hT : env.ttsOk with
    | false => simp [run_articles, process_article, hT] at hev
    | true =>
      cases hok : env.audioSendOk <;>
        simp [run_articles, process_article, tg_send_audio, hT, hok] at hev <;>
        simp only [List.map_cons, List.mem_cons]
      · rcases hev with ⟨_, _, hp, _⟩ | h2
        · exact Or.inl hp
        · exact Or.inr (ih _ h2 t l p ok rfl)
      · rcases hev with ⟨_, _, hp, _⟩ | h2
        · exact Or.inl hp
        · exact Or.inr (ih _ h2 t l p ok rfl)

/-- C8: conversion activation is decided once, before any article.  An unset
model-source URL disables conversion without error; a failing
`download_model_if_needed` disables it for the run; the number of
model-acquisition network requests does not depend on the articles at all
(so acquisition is never retried per-article); and in a conversion-disabled
run every audio post delivers an article's unconverted TTS file. -/
theorem spec_C8 (hf : String) (d : CacheDir) (remote : Remote)
    (arts arts2 : List (ArticleInput × ArticleEnv)) :
    (hf = "" → resolve_model hf d remote = (false, "", "", 0)) ∧
      ((download_model_if_needed d remote).1 = ModelResult.error →
        (resolve_model hf d remote).1 = false) ∧
      (main_run hf d remote arts).2 = (main_run hf d remote arts2).2 ∧
      ((resolve_model hf d remote).1 = false →
        ∀ ev ∈ (main_run hf d remote arts).1.events, ∀ t l p ok,
          ev = Event.audioPost t l p ok →
            p ∈ arts.map (fun x => x.2.ttsPath)) := by
  refine ⟨?_, ?_, rfl, ?_⟩
  · intro h; simp [resolve_model, h]
  · intro h
    by_cases hhf : hf = ""
    · simp [resolve_model, hhf]
    · rcases hdl : download_model_if_needed d remote with ⟨res, n⟩
      rw [hdl] at h
      simp at h
      simp [resolve_model, hhf, hdl, h]
  · intro hfal ev hev t l p ok heq
    simp only [main_run] at hev
    rw [hfal] at hev
    exact run_articles_audio_unconverted _ _ arts ev hev t l p ok heq

def cacheEmpty : CacheDir := ⟨[]⟩

theorem spec_C8_witness :
    resolve_model "" cacheEmpty Remote.fail = (false, "", "", 0) ∧
      (resolve_model "http://hf/m.zip" cacheEmpty Remote.fail).1 = false ∧
      (main_run "" cacheEmpty Remote.fail [(artSample, envRvcOk)]).2 =
        (main_run "" cacheEmpty Remote.fail []).2 ∧
      "/tmp/a.mp3" ∈ [(artSample, envRvcOk)].map (fun x => x.2.ttsPath) :=
  ⟨(spec_C8 "" cacheEmpty Remote.fail [(artSample, envRvcOk)] []).1 rfl,
   (spec_C8 "http://hf/m.zip" cacheEmpty Remote.fail [] []).2.1 (by decide),
   (spec_C8 "" cacheEmpty Remote.fail [(artSample, envRvcOk)] []).2.2.1,
   (spec_C8 "" cacheEmpty Remote.fail [(artSample, envRvcOk)] []).2.2.2
     (by decide)
     (Event.audioPost artSample.title artSample.link "/tmp/a.mp3" true)
     (by decide) artSample.title artSample.link "/tmp/a.mp3" true rfl⟩
